import Mathlib

/-
  Shallow embedding of the per-object animation / path-following motion system
  of src/KatamariDamacy/objects.ts (noclip.website).

  JavaScript numbers are modelled as real numbers.  gl-matrix vectors are a
  Vec3 record, gl-matrix mat4 values are 4x4 real matrices (column-major
  element m[4*c+r] of the library corresponds to matrix entry (row r, col c)).
  Math.random() is modelled by passing the drawn sample as an explicit
  argument.  Out-of-range Float32Array reads (which yield NaN in JS) are
  modelled as 0; every theorem below either keeps all reads in range or
  concerns state components that the out-of-range read does not influence.
-/

noncomputable section

namespace KD

@[ext] structure Vec3 where
  x : ℝ
  y : ℝ
  z : ℝ

def vadd (a b : Vec3) : Vec3 := ⟨a.x + b.x, a.y + b.y, a.z + b.z⟩

def vsub (a b : Vec3) : Vec3 := ⟨a.x - b.x, a.y - b.y, a.z - b.z⟩

def vscale (a : Vec3) (s : ℝ) : Vec3 := ⟨a.x * s, a.y * s, a.z * s⟩

/-- gl-matrix vec3.length. -/
def vlength (a : Vec3) : ℝ := Real.sqrt (a.x ^ 2 + a.y ^ 2 + a.z ^ 2)

/-- gl-matrix vec3.dist. -/
def vdist (a b : Vec3) : ℝ := vlength (vsub a b)

/-- gl-matrix vec3.normalize: scales by 1/sqrt of the squared length when that
is positive, otherwise leaves the zero vector unchanged. -/
def vnormalize (a : Vec3) : Vec3 :=
  let len2 := a.x ^ 2 + a.y ^ 2 + a.z ^ 2
  if 0 < len2 then vscale a (1 / Real.sqrt len2) else a

/-- Math.hypot on two arguments. -/
def hypot2 (a b : ℝ) : ℝ := Real.sqrt (a ^ 2 + b ^ 2)

/-- Modelled from the spec: MathHelpers.normToLength — "normalize-to-length":
rescale a vector so its length becomes len, leaving a zero vector unchanged.
MathHelpers.ts is repository code that is not part of the excerpt. -/
def normToLength (a : Vec3) (len : ℝ) : Vec3 :=
  let vlen := vlength a
  if 0 < vlen then vscale a (len / vlen) else a

/-- Math.sign. -/
def jsSign (x : ℝ) : ℝ := if 0 < x then 1 else if x < 0 then -1 else 0

/-- JS remainder operator (sign follows the dividend). -/
def jsRem (a b : ℤ) : ℤ := if a < 0 then -((-a) % b) else a % b

/-- Math.atan2(y, x), modelled as the argument of the complex number x + y*i
(range (-pi, pi], matching JS up to the sign of the boundary cases; no theorem
below depends on its values). -/
def jsAtan2 (y x : ℝ) : ℝ := Complex.arg ⟨x, y⟩

/-- Modelled from the spec: MathHelpers.clamp — "clamping" a value between a
lower and an upper bound (clamp(v, min, max) = Math.max(min, Math.min(v, max))).
MathHelpers.ts is repository code that is not part of the excerpt. -/
def clamp (v lo hi : ℝ) : ℝ := max lo (min v hi)

/-- Modelled from the spec: MathHelpers.angleDist — "angular-distance (shortest
signed difference between two angles)": the representative of v1 - v0 modulo
2*pi lying in [-pi, pi).  MathHelpers.ts is repository code that is not part of
the excerpt. -/
def angleDist (v0 v1 : ℝ) : ℝ :=
  (v1 - v0) - 2 * Real.pi * (⌊((v1 - v0) + Real.pi) / (2 * Real.pi)⌋ : ℤ)

abbrev Mat4 := Matrix (Fin 4) (Fin 4) ℝ

def mat4identity : Mat4 := 1

/-- Modelled from the spec: MathHelpers.getMatrixAxisZ — "matrix get-axis":
the third basis column (elements m[8], m[9], m[10]) of a column-major mat4. -/
def getMatrixAxisZ (m : Mat4) : Vec3 := ⟨m 0 2, m 1 2, m 2 2⟩

/-- gl-matrix mat4.getTranslation: elements m[12], m[13], m[14]. -/
def getTranslation (m : Mat4) : Vec3 := ⟨m 0 3, m 1 3, m 2 3⟩

/-- Principal-axis rotation matrix about X (column-vector convention); gl-matrix
mat4.rotateX(out, a, rad) computes a * rotXMat rad. -/
def rotXMat (rad : ℝ) : Mat4 :=
  !![1, 0, 0, 0;
     0, Real.cos rad, -(Real.sin rad), 0;
     0, Real.sin rad, Real.cos rad, 0;
     0, 0, 0, 1]

def rotYMat (rad : ℝ) : Mat4 :=
  !![Real.cos rad, 0, Real.sin rad, 0;
     0, 1, 0, 0;
     -(Real.sin rad), 0, Real.cos rad, 0;
     0, 0, 0, 1]

def rotZMat (rad : ℝ) : Mat4 :=
  !![Real.cos rad, -(Real.sin rad), 0, 0;
     Real.sin rad, Real.cos rad, 0, 0;
     0, 0, 1, 0;
     0, 0, 0, 1]

/-- gl-matrix mat4.fromRotation: the Rodrigues rotation matrix about the
normalized axis (the library's early-out for a near-zero axis is not modelled;
no theorem below inspects the produced entries). -/
def mat4FromRotation (rad : ℝ) (axis : Vec3) : Mat4 :=
  let len := vlength axis
  let x := axis.x / len
  let y := axis.y / len
  let z := axis.z / len
  let s := Real.sin rad
  let c := Real.cos rad
  let t := 1 - c
  !![x * x * t + c, x * y * t - z * s, x * z * t + y * s, 0;
     y * x * t + z * s, y * y * t + c, y * z * t - x * s, 0;
     z * x * t - y * s, z * y * t + x * s, z * z * t + c, 0;
     0, 0, 0, 1]

/-- Read one element of the flat path Float32Array; out-of-range reads give
NaN in JS and are modelled as 0. -/
def pathGet (path : List ℝ) (i : ℤ) : ℝ :=
  if 0 ≤ i then path.getD i.toNat 0 else 0

/-- pathPoint(dst, path, i): the three coordinates at stride-4 index i. -/
def pathPointV (path : List ℝ) (i : ℤ) : Vec3 :=
  ⟨pathGet path (4 * i + 0), pathGet path (4 * i + 1), pathGet path (4 * i + 2)⟩

/-- AABB fields used by this excerpt (Geometry.ts is outside the excerpt; the
spec lists the consumed interface as the minY/maxY fields only). -/
structure AABBm where
  minY : ℝ
  maxY : ℝ

/-- The interface MotionState of objects.ts.  `parameters` is flattened to the
only field this excerpt reads from it, the flat waypoint array `pathPoints`. -/
structure MotionState where
  pathPoints : List ℝ
  pos : Vec3
  target : Vec3
  velocity : Vec3
  adjustPitch : Bool
  pathIndex : ℤ
  speed : ℝ
  euler : Vec3
  eulerStep : Vec3
  eulerTarget : Vec3
  angle : ℝ
  angleStep : ℝ
  angleTarget : ℝ
  base : Mat4
  reference : Mat4
  final : Mat4
  axis : Vec3
  timer : ℝ
  state : ℤ

/-- The parts of BINModelInstance this excerpt touches: the mutable world
matrix, the stored Euler angles and rest-pose translation, and the model's
bounding box (binModelData.binModel.bbox). -/
structure BINModelInstance where
  modelMatrix : Mat4
  euler : Vec3
  translation : Vec3
  binModelBBox : AABBm

def defaultBMI : BINModelInstance := ⟨mat4identity, ⟨0, 0, 0⟩, ⟨0, 0, 0⟩, ⟨0, 0⟩⟩

/-- The parts of ObjectRenderer the animation and motion functions read:
the sub-model instances, the object bounding box, the spawn transform
(objectSpawn.modelMatrix) and type identity (objectSpawn.objectId), and the
optional motion state. -/
structure ObjectRenderer where
  modelInstance : List BINModelInstance
  objectId : ℕ
  spawnModelMatrix : Mat4
  bbox : AABBm
  motionState : Option MotionState

/-- object.modelInstance[0] (JS index 0 of the instance array). -/
def firstInst (o : ObjectRenderer) : BINModelInstance := o.modelInstance.getD 0 defaultBMI

/-- objectSpawn.modelMatrix[13]: the spawn height. -/
def spawnY (o : ObjectRenderer) : ℝ := o.spawnModelMatrix 1 3

/-- The spawn-time motion state built in the ObjectRenderer constructor
(speed already resolved from the path / speed table). -/
def initMotionState (o : ObjectRenderer) (pathPoints : List ℝ) (speed : ℝ)
    (adjustPitch : Bool) : MotionState where
  pathPoints := pathPoints
  pos := getTranslation o.spawnModelMatrix
  target := ⟨0, 0, 0⟩
  velocity := ⟨0, 0, 0⟩
  adjustPitch := adjustPitch
  pathIndex := -1
  speed := speed
  euler := ⟨0, 0, 0⟩
  eulerStep := ⟨0, 0, 0⟩
  eulerTarget := ⟨0, 0, 0⟩
  angle := 0
  angleStep := 0
  angleTarget := 0
  base := o.spawnModelMatrix
  reference := mat4identity
  final := mat4identity
  axis := ⟨0, 0, 0⟩
  timer := -1
  state := -1

inductive Axis | X | Y | Z

/-- rotateObject: incremental local rotation of one sub-model about a principal
axis, accumulated into its stored Euler angle. -/
def rotateObject (inst : BINModelInstance) (deltaTimeInFrames : ℝ) (axis : Axis)
    (value : ℝ) : BINModelInstance :=
  let angle := (value / -60) * deltaTimeInFrames
  let mm :=
    match axis with
    | Axis.X => inst.modelMatrix * rotXMat angle
    | Axis.Y => inst.modelMatrix * rotYMat angle
    | Axis.Z => inst.modelMatrix * rotZMat angle
  let e :=
    match axis with
    | Axis.X => ⟨inst.euler.x + angle, inst.euler.y, inst.euler.z⟩
    | Axis.Y => ⟨inst.euler.x, inst.euler.y + angle, inst.euler.z⟩
    | Axis.Z => (⟨inst.euler.x, inst.euler.y, inst.euler.z + angle⟩ : Vec3)
  { inst with modelMatrix := mm, euler := e }

/-- Replace element i of a list (out-of-range leaves the list unchanged,
mirroring that the JS code only ever touches existing instances). -/
def setNth (l : List BINModelInstance) (i : ℕ) (f : BINModelInstance → BINModelInstance) :
    List BINModelInstance :=
  match l, i with
  | [], _ => []
  | a :: t, 0 => f a :: t
  | a :: t, n + 1 => a :: setNth t n f

/-- Apply rotateObject to object.modelInstance[i]. -/
def rotateObjectAt (o : ObjectRenderer) (i : ℕ) (dt : ℝ) (axis : Axis) (value : ℝ) :
    ObjectRenderer :=
  { o with modelInstance := setNth o.modelInstance i (fun inst => rotateObject inst dt axis value) }

def animFunc_HUKUBIKI_C (o : ObjectRenderer) (dt : ℝ) : ObjectRenderer :=
  rotateObjectAt o 1 dt Axis.Z 1

def animFunc_COMPASS_A (o : ObjectRenderer) (dt : ℝ) : ObjectRenderer :=
  rotateObjectAt o 1 dt Axis.Y 1

def animFunc_WINDMILL01_G (o : ObjectRenderer) (dt : ℝ) : ObjectRenderer :=
  rotateObjectAt o 1 dt Axis.Z 12

def animFunc_PLANE02_F (o : ObjectRenderer) (dt : ℝ) : ObjectRenderer :=
  rotateObjectAt (rotateObjectAt o 1 dt Axis.Y 16.8) 2 dt Axis.X 16.8

def animFunc_PLANE03_F (o : ObjectRenderer) (dt : ℝ) : ObjectRenderer :=
  rotateObjectAt (rotateObjectAt o 0 dt Axis.Z 16.8) 2 dt Axis.Z 16.8

/-- vehicleAnimFunc: spins the two wheel sub-models, but only when the object
has a motion state ("don't turn the wheels if we aren't moving"). -/
def vehicleAnimFunc (o : ObjectRenderer) (dt : ℝ) : ObjectRenderer :=
  match o.motionState with
  | none => o
  | some _ => rotateObjectAt (rotateObjectAt o 1 dt Axis.X (-4)) 2 dt Axis.X (-4)

def AnimFunc := ObjectRenderer → ℝ → ObjectRenderer

/-- animFuncSelect: dispatch from objectSpawn.objectId to the animation
function (the ObjectId enum values are inlined as their hex codes). -/
def animFuncSelect (objectId : ℕ) : Option AnimFunc :=
  match objectId with
  | 0x0023 => some animFunc_HUKUBIKI_C
  | 0x002F => some animFunc_COMPASS_A
  | 0x02C6 => some animFunc_WINDMILL01_G
  | 0x0091 | 0x0092 | 0x0093 | 0x0094 | 0x0095 | 0x0096 | 0x01A2
  | 0x0133 | 0x0135 | 0x0136 | 0x0156 | 0x0157 | 0x0165 | 0x01B2
  | 0x01B3 | 0x02B0 | 0x0220 | 0x02F1 | 0x02F2 | 0x0405 => some vehicleAnimFunc
  | 0x0382 => some animFunc_PLANE02_F
  | 0x0383 => some animFunc_PLANE03_F
  | _ => none

/-- Loop state of findPathStartIndex (minPoint, secPoint, secDist, minDist). -/
structure FindSt where
  minPoint : ℤ
  secPoint : ℤ
  secDist : ℝ
  minDist : ℝ

/-- One iteration of the findPathStartIndex for-loop body at index i. -/
def findStep (pos : Vec3) (path : List ℝ) (st : FindSt) (i : ℤ) : FindSt :=
  let d := vdist pos (pathPointV path i)
  if d < st.minDist then ⟨i, st.minPoint, st.minDist, d⟩
  else if st.secPoint < 0 ∨ d < st.secDist then { st with secPoint := i, secDist := d }
  else st

/-- The findPathStartIndex for-loop: k iterations of findStep starting at
index i. -/
def findLoop (pos : Vec3) (path : List ℝ) : ℤ → ℕ → FindSt → FindSt
  | _, 0, st => st
  | i, Nat.succ k, st => findLoop pos path (i + 1) k (findStep pos path st i)

/-- findPathStartIndex: nearest / second-nearest waypoint search with the
index-0 tie-break.  The loop runs for i = 1 while 4*i < path.length, i.e. for
(path.length + 3) / 4 - 1 iterations. -/
def findPathStartIndex (pos : Vec3) (path : List ℝ) : ℤ :=
  let st0 : FindSt := ⟨0, -1, 0, vdist pos (pathPointV path 0)⟩
  let stF := findLoop pos path 1 ((path.length + 3) / 4 - 1) st0
  if stF.minPoint = 0 ∧ stF.secPoint ≠ 1 then 0
  else if stF.secPoint = 0 ∧ stF.minPoint ≠ 1 then 0
  else max stF.minPoint stF.secPoint

/-- The wrapped path index targetNextPoint advances to (pathIndex++, reset to 0
when 4 * pathIndex reaches the array length). -/
def tnpNewIndex (m : MotionState) : ℤ :=
  let i1 := m.pathIndex + 1
  if i1 * 4 = (m.pathPoints.length : ℤ) then 0 else i1

/-- The new target taken from the path at the advanced index, lowered by
yOffset (the object's bbox.maxY). -/
def tnpTarget (m : MotionState) (yOffset : ℝ) : Vec3 :=
  let t := pathPointV m.pathPoints (tnpNewIndex m)
  ⟨t.x, t.y - yOffset, t.z⟩

/-- velocity = target - pos right after the waypoint advance (pos has just been
set to the old target). -/
def tnpVelocity (m : MotionState) (yOffset : ℝ) : Vec3 :=
  vsub (tnpTarget m yOffset) m.target

def tnpDistToTarget (m : MotionState) (yOffset : ℝ) : ℝ := vlength (tnpVelocity m yOffset)

/-- The divisor of the yaw-timing computation: 30 stands in for a speed of
exactly 0. -/
def tnpYawDivisor (m : MotionState) : ℝ := if m.speed = 0 then 30 else m.speed

def tnpFramesUntilYaw (m : MotionState) (yOffset : ℝ) : ℝ :=
  tnpDistToTarget m yOffset / tnpYawDivisor m

/-- The pitch-timing frame count: a fixed 4 frames when speed is exactly 0. -/
def tnpFramesUntilPitch (m : MotionState) (yOffset : ℝ) : ℝ :=
  if m.speed = 0 then 4 else 0.25 * tnpDistToTarget m yOffset / m.speed

/-- targetNextPoint: advance to the next waypoint, retarget yaw (and pitch when
adjustPitch is set), and renormalize velocity to the object's speed. -/
def targetNextPoint (m0 : MotionState) (yOffset : ℝ) : MotionState :=
  let pos' := m0.target
  let i2 := tnpNewIndex m0
  let target' := tnpTarget m0 yOffset
  let vel0 := tnpVelocity m0 yOffset
  let zAxis := getMatrixAxisZ m0.final
  let eulerY := jsAtan2 zAxis.x zAxis.z
  let eulerTY := Real.pi + jsAtan2 vel0.x vel0.z
  let eulerStepY := angleDist eulerY eulerTY / tnpFramesUntilYaw m0 yOffset
  let m1 := { m0 with
    pos := pos'
    pathIndex := i2
    target := target'
    velocity := vel0
    euler := { m0.euler with y := eulerY }
    eulerTarget := { m0.eulerTarget with y := eulerTY }
    eulerStep := { m0.eulerStep with y := eulerStepY } }
  let m2 :=
    if m1.adjustPitch then
      let axis' := vnormalize ⟨vel0.z, 0, -vel0.x⟩
      let velN := vnormalize vel0
      let zN := vnormalize zAxis
      let dot := -velN.y * zN.y + hypot2 velN.x velN.z * hypot2 zN.x zN.z
      let at0 := Real.arccos (clamp dot (-1) 1)
      let angleTarget' := if -velN.y < zN.y then -at0 else at0
      { m1 with
        reference := m1.base
        axis := axis'
        velocity := velN
        angleTarget := angleTarget'
        angleStep := angleTarget' / tnpFramesUntilPitch m1 yOffset
        angle := 0 }
    else m1
  { m2 with velocity := normToLength m2.velocity m2.speed }

/-- adjustBasePitch: advance the pitch blend; on completion or overshoot snap
base to the exact pitch of the velocity vector and zero the step. -/
def adjustBasePitch (m : MotionState) (deltaTimeInFrames : ℝ) : MotionState :=
  if m.angleStep * deltaTimeInFrames = 0 then m
  else
    let angle' := m.angle + m.angleStep * deltaTimeInFrames
    let delta := (m.angleTarget - angle') * m.angleStep
    if delta < 0 then
      let pitch := -(jsAtan2 m.velocity.y (hypot2 m.velocity.x m.velocity.z))
      { m with
        angleStep := 0
        angle := m.angleTarget
        base := mat4FromRotation pitch m.axis }
    else
      { m with
        angle := angle'
        base := m.reference * mat4FromRotation angle' m.axis }

/-- The one-time initialization block of followPath (pathIndex still -1):
pick the start waypoint, snap to it, target the following waypoint. -/
def fpInit (o : ObjectRenderer) (m0 : MotionState) : MotionState :=
  let idx := findPathStartIndex m0.pos m0.pathPoints
  let p := pathPointV m0.pathPoints idx
  let pos' : Vec3 := ⟨p.x, p.y - o.bbox.maxY, p.z⟩
  let idx2 := idx + 1
  let t := pathPointV m0.pathPoints idx2
  let target' : Vec3 := ⟨t.x, t.y - o.bbox.maxY, t.z⟩
  let eulerY := Real.pi + jsAtan2 (target'.x - pos'.x) (target'.z - pos'.z)
  { m0 with
    base := mat4identity
    pathIndex := idx2
    pos := pos'
    target := target'
    euler := { m0.euler with y := eulerY }
    velocity := normToLength (vsub target' pos') m0.speed }

/-- The yaw-advance block of followPath: advance euler.y by eulerStep.y *
deltaTimeInFrames; if the step sign no longer matches the sign of the
remaining angular distance, snap euler.y to the target and zero the step. -/
def yawAdvance (deltaTimeInFrames : ℝ) (m3 : MotionState) : MotionState :=
  let m4 := { m3 with euler := { m3.euler with
    y := m3.euler.y + m3.eulerStep.y * deltaTimeInFrames } }
  if jsSign m4.eulerStep.y ≠ jsSign (angleDist m4.euler.y m4.eulerTarget.y) then
    { m4 with
      euler := { m4.euler with y := m4.eulerTarget.y }
      eulerStep := { m4.eulerStep with y := 0 } }
  else m4

theorem yawAdvance_pathIndex (dt : ℝ) (m : MotionState) :
    (yawAdvance dt m).pathIndex = m.pathIndex := by
  simp only [yawAdvance]
  split <;> rfl

theorem yawAdvance_pathPoints (dt : ℝ) (m : MotionState) :
    (yawAdvance dt m).pathPoints = m.pathPoints := by
  simp only [yawAdvance]
  split <;> rfl

theorem yawAdvance_pos (dt : ℝ) (m : MotionState) :
    (yawAdvance dt m).pos = m.pos := by
  simp only [yawAdvance]
  split <;> rfl

theorem yawAdvance_velocity (dt : ℝ) (m : MotionState) :
    (yawAdvance dt m).velocity = m.velocity := by
  simp only [yawAdvance]
  split <;> rfl

theorem yawAdvance_eulerTarget (dt : ℝ) (m : MotionState) :
    (yawAdvance dt m).eulerTarget = m.eulerTarget := by
  simp only [yawAdvance]
  split <;> rfl

/-- followPath: the per-frame path-following update (initialization on first
call, pitch blend, waypoint advance, yaw advance with overshoot snap, position
integration).  Always requests a transform rebuild. -/
def followPath (o : ObjectRenderer) (deltaTimeInFrames : ℝ) (m0 : MotionState) :
    MotionState × Bool :=
  let m1 := if m0.pathIndex < 0 then fpInit o m0 else m0
  let m2 := if m1.adjustPitch then adjustBasePitch m1 deltaTimeInFrames else m1
  let m3 :=
    if vdist m2.target m2.pos ≤ m2.speed * deltaTimeInFrames then
      targetNextPoint m2 o.bbox.maxY
    else m2
  let m5 := yawAdvance deltaTimeInFrames m3
  ({ m5 with pos := vadd m5.pos (vscale m5.velocity deltaTimeInFrames) }, true)

/-- Modelled from the spec: MathHelpers.transformVec3Mat4w0 —
"transform-direction-by-matrix (ignoring translation)": the upper-left 3x3
block applied to the vector.  MathHelpers.ts is repository code that is not
part of the excerpt. -/
def transformVec3Mat4w0 (m : Mat4) (v : Vec3) : Vec3 :=
  ⟨m 0 0 * v.x + m 0 1 * v.y + m 0 2 * v.z,
   m 1 0 * v.x + m 1 1 * v.y + m 1 2 * v.z,
   m 2 0 * v.x + m 2 1 * v.y + m 2 2 * v.z⟩

def miscSpinMotionFunc (o : ObjectRenderer) (deltaTimeInFrames : ℝ) (m : MotionState) :
    MotionState × Bool :=
  ({ m with euler := { m.euler with y := m.euler.y + 0.05 * deltaTimeInFrames } }, true)

/-- miscBobMotionFunc; `rand` is the sample drawn from Math.random() when the
delay timer is (re)armed. -/
def miscBobMotionFunc (rand : ℝ) (o : ObjectRenderer) (deltaTimeInFrames : ℝ)
    (m : MotionState) : MotionState × Bool :=
  let m1 := if m.timer = -1 then { m with timer := rand * 60 } else m
  let m2 :=
    if m1.timer < deltaTimeInFrames then
      let angle' := m1.angle + deltaTimeInFrames * Real.pi / 45
      { m1 with
        angle := angle'
        pos := { m1.pos with
          y := o.spawnModelMatrix 1 3 + o.bbox.maxY * 0.15 * Real.sin angle' } }
    else { m1 with timer := m1.timer - deltaTimeInFrames }
  (m2, false)

def miscFlipMotionFunc (o : ObjectRenderer) (deltaTimeInFrames : ℝ) (m : MotionState) :
    MotionState × Bool :=
  ({ m with euler := { m.euler with x := m.euler.x - 0.05 * deltaTimeInFrames } }, true)

def miscSwayMotionFunc (o : ObjectRenderer) (deltaTimeInFrames : ℝ) (m : MotionState) :
    MotionState × Bool :=
  let angle' := m.angle + deltaTimeInFrames * Real.pi / 45
  let eulerZ := Real.sin angle' * (2 * Real.pi) / 36
  let m1 := { m with angle := angle', euler := { m.euler with z := eulerZ } }
  let m2 :=
    if o.objectId ≠ 0x016B then
      let sw0 : Vec3 := ⟨Real.sin eulerZ, -(Real.cos eulerZ), 0⟩
      let sw := transformVec3Mat4w0 m1.final sw0
      let bottomOffset := (firstInst o).binModelBBox.maxY
      let sws := vscale sw bottomOffset
      { m1 with pos := ⟨o.spawnModelMatrix 0 3 + sws.x,
          o.spawnModelMatrix 1 3 + sws.y + bottomOffset,
          o.spawnModelMatrix 2 3 + sws.z⟩ }
    else m1
  (m2, true)

/-- buriedDepth of the whack-a-mole motion: firstBBox.maxY plus the height of
the first sub-model's bounding box. -/
def whackBuriedDepth (o : ObjectRenderer) : ℝ :=
  (firstInst o).binModelBBox.maxY +
    ((firstInst o).binModelBBox.maxY - (firstInst o).binModelBBox.minY)

/-- miscWhackAMoleMotionFunc; `rand` is the sample drawn from Math.random()
when the cycle restarts. -/
def miscWhackAMoleMotionFunc (rand : ℝ) (o : ObjectRenderer) (deltaTimeInFrames : ℝ)
    (m : MotionState) : MotionState × Bool :=
  let m1 :=
    if m.timer = -1 then
      { m with
        timer := rand * 150 + 60
        angle := Real.pi / 2
        state := jsRem (m.state + 1) 2
        angleStep := Real.pi / 45 }
    else m
  let m2 :=
    if m1.timer < deltaTimeInFrames then
      let angle1 := m1.angle + m1.angleStep * deltaTimeInFrames
      let angle2 := if Real.pi < angle1 then 0 else angle1
      let timer2 := if Real.pi < angle1 then -1 else m1.timer
      { m1 with
        angle := angle2
        timer := timer2
        pos := { m1.pos with
          y := o.spawnModelMatrix 1 3 + whackBuriedDepth o *
            (if m1.state = 0 then 1 - Real.sin angle2 else Real.sin angle2) } }
    else { m1 with timer := m1.timer - deltaTimeInFrames }
  (m2, false)

/-- An all-zero motion state used as the base of concrete instances. -/
def baseMS : MotionState where
  pathPoints := []
  pos := ⟨0, 0, 0⟩
  target := ⟨0, 0, 0⟩
  velocity := ⟨0, 0, 0⟩
  adjustPitch := false
  pathIndex := 0
  speed := 0
  euler := ⟨0, 0, 0⟩
  eulerStep := ⟨0, 0, 0⟩
  eulerTarget := ⟨0, 0, 0⟩
  angle := 0
  angleStep := 0
  angleTarget := 0
  base := mat4identity
  reference := mat4identity
  final := mat4identity
  axis := ⟨0, 0, 0⟩
  timer := 0
  state := 0

/-- A plain object with three default sub-models, used in concrete instances. -/
def baseObj : ObjectRenderer where
  modelInstance := [defaultBMI, defaultBMI, defaultBMI]
  objectId := 0
  spawnModelMatrix := mat4identity
  bbox := ⟨0, 0⟩
  motionState := none

/-- Claim C8: bob and whack-a-mole are translation-only (return false), while
path-following, spin, flip and sway request a transform rebuild (return true),
for every object, time delta, motion state and random sample. -/
theorem motion_rebuild_flags (rand : ℝ) (o : ObjectRenderer) (dt : ℝ) (m : MotionState) :
    (miscBobMotionFunc rand o dt m).2 = false ∧
    (miscWhackAMoleMotionFunc rand o dt m).2 = false ∧
    (followPath o dt m).2 = true ∧
    (miscSpinMotionFunc o dt m).2 = true ∧
    (miscFlipMotionFunc o dt m).2 = true ∧
    (miscSwayMotionFunc o dt m).2 = true :=
  ⟨rfl, rfl, rfl, rfl, rfl, rfl⟩

/-- Claim C9: when an object whose type identity selects the shared vehicle
animation has no motion state, the vehicle animation function is a no-op:
every sub-model's model matrix and stored Euler angles are unchanged. -/
theorem vehicleAnimFunc_noop (o : ObjectRenderer) (dt : ℝ)
    (hsel : animFuncSelect o.objectId = some vehicleAnimFunc)
    (hm : o.motionState = none) :
    vehicleAnimFunc o dt = o ∧
    (vehicleAnimFunc o dt).modelInstance = o.modelInstance := by
  have h : vehicleAnimFunc o dt = o := by
    unfold vehicleAnimFunc
    rw [hm]
  exact ⟨h, by rw [h]⟩

/-- Witness for C9 at a concrete CAR02_F object with no motion state. -/
def cexVehicle : ObjectRenderer := { baseObj with objectId := 0x0091 }

theorem vehicleAnimFunc_noop_witness :
    vehicleAnimFunc cexVehicle 1 = cexVehicle ∧
    (vehicleAnimFunc cexVehicle 1).modelInstance = cexVehicle.modelInstance :=
  vehicleAnimFunc_noop cexVehicle 1 rfl rfl

/-- Claim C10: a whack-a-mole cycle restart (entered with timer = -1, random
sample in [0,1), frame delta in the caller's clamped range [0,2]) sets the
timer to rand*150+60, a value in [60, 210) (the returned state's timer is that
value minus the frame delta consumed by the countdown branch), resets angle to
pi/2 and angleStep to pi/45, and toggles state by state' = (state+1) mod 2. -/
theorem whack_restart (rand : ℝ) (o : ObjectRenderer) (dt : ℝ) (m : MotionState)
    (ht : m.timer = -1) (hr0 : 0 ≤ rand) (hr1 : rand < 1)
    (hd0 : 0 ≤ dt) (hd2 : dt ≤ 2) (hs : -1 ≤ m.state) :
    (miscWhackAMoleMotionFunc rand o dt m).1.angle = Real.pi / 2 ∧
    (miscWhackAMoleMotionFunc rand o dt m).1.angleStep = Real.pi / 45 ∧
    (miscWhackAMoleMotionFunc rand o dt m).1.state = (m.state + 1) % 2 ∧
    (miscWhackAMoleMotionFunc rand o dt m).1.timer + dt = rand * 150 + 60 ∧
    60 ≤ (miscWhackAMoleMotionFunc rand o dt m).1.timer + dt ∧
    (miscWhackAMoleMotionFunc rand o dt m).1.timer + dt < 210 := by
  have h150 : 0 ≤ rand * 150 := by positivity
  have hcond : ¬(rand * 150 + 60 < dt) := by linarith
  have hrem : jsRem (m.state + 1) 2 = (m.state + 1) % 2 := by
    unfold jsRem
    rw [if_neg (by omega)]
  simp only [miscWhackAMoleMotionFunc, ht]
  norm_num [hcond]
  exact ⟨hrem, by linarith, by linarith⟩

/-- Witness for C10 at a concrete restart state. -/
def cexWhack : MotionState := { baseMS with timer := -1, state := -1 }

theorem whack_restart_witness :
    (miscWhackAMoleMotionFunc (1/2) baseObj 1 cexWhack).1.angle = Real.pi / 2 ∧
    (miscWhackAMoleMotionFunc (1/2) baseObj 1 cexWhack).1.angleStep = Real.pi / 45 ∧
    (miscWhackAMoleMotionFunc (1/2) baseObj 1 cexWhack).1.state = (cexWhack.state + 1) % 2 ∧
    (miscWhackAMoleMotionFunc (1/2) baseObj 1 cexWhack).1.timer + 1 = 1/2 * 150 + 60 ∧
    60 ≤ (miscWhackAMoleMotionFunc (1/2) baseObj 1 cexWhack).1.timer + 1 ∧
    (miscWhackAMoleMotionFunc (1/2) baseObj 1 cexWhack).1.timer + 1 < 210 :=
  whack_restart (1/2) baseObj 1 cexWhack rfl (by norm_num) (by norm_num)
    (by norm_num) (by norm_num) (by norm_num [cexWhack, baseMS])

/-- Claim C6: in targetNextPoint, for a motion state with nonnegative speed and
positive distance to the advanced-to target, neither the yaw-timing nor the
pitch-timing computation divides by zero: the yaw divisor is 30 when speed is
exactly 0 (otherwise the nonzero speed), so framesUntilYaw is nonzero, and the
pitch frame count is the fixed 4 when speed is 0 (otherwise positive). -/
theorem targetNextPoint_no_div_by_zero (m : MotionState) (yOffset : ℝ)
    (hsp : 0 ≤ m.speed) (hdist : 0 < tnpDistToTarget m yOffset) :
    tnpYawDivisor m ≠ 0 ∧ tnpFramesUntilYaw m yOffset ≠ 0 ∧
    tnpFramesUntilPitch m yOffset ≠ 0 ∧
    (m.speed = 0 → tnpYawDivisor m = 30 ∧ tnpFramesUntilPitch m yOffset = 4) := by
  by_cases h0 : m.speed = 0
  · have hdiv : tnpYawDivisor m = 30 := by simp [tnpYawDivisor, h0]
    have hfy : tnpFramesUntilYaw m yOffset ≠ 0 := by
      unfold tnpFramesUntilYaw
      rw [hdiv]
      positivity
    have hfp : tnpFramesUntilPitch m yOffset = 4 := by simp [tnpFramesUntilPitch, h0]
    exact ⟨by rw [hdiv]; norm_num, hfy, by rw [hfp]; norm_num, fun _ => ⟨hdiv, hfp⟩⟩
  · have hpos : 0 < m.speed := lt_of_le_of_ne hsp (Ne.symm h0)
    have hdiv : tnpYawDivisor m = m.speed := by simp [tnpYawDivisor, h0]
    have hfy : tnpFramesUntilYaw m yOffset ≠ 0 := by
      unfold tnpFramesUntilYaw
      rw [hdiv]
      positivity
    have hfp : tnpFramesUntilPitch m yOffset ≠ 0 := by
      unfold tnpFramesUntilPitch
      rw [if_neg h0]
      positivity
    exact ⟨by rw [hdiv]; exact ne_of_gt hpos, hfy, hfp, fun h => absurd h h0⟩

/-- Witness for C6 at a concrete state (two waypoints 5 apart, speed 0). -/
def cexTnp : MotionState := { baseMS with pathPoints := [0, 0, 0, 0, 3, 0, 4, 0] }

theorem targetNextPoint_no_div_by_zero_witness :
    tnpYawDivisor cexTnp ≠ 0 ∧ tnpFramesUntilYaw cexTnp 0 ≠ 0 ∧
    tnpFramesUntilPitch cexTnp 0 ≠ 0 ∧
    (cexTnp.speed = 0 → tnpYawDivisor cexTnp = 30 ∧ tnpFramesUntilPitch cexTnp 0 = 4) := by
  refine targetNextPoint_no_div_by_zero cexTnp 0 (le_refl 0) ?_
  have h : tnpDistToTarget cexTnp 0 = Real.sqrt 25 := by
    simp [tnpDistToTarget, tnpVelocity, tnpTarget, tnpNewIndex, cexTnp, baseMS,
      pathPointV, pathGet, vsub, vlength, List.getD]
    norm_num
  rw [h]
  positivity

/-- Run a (randomized) motion function over a list of (deltaTime, random
sample) frames. -/
def runMotion (f : ℝ → ℝ → MotionState → MotionState) (seq : List (ℝ × ℝ))
    (m : MotionState) : MotionState :=
  seq.foldl (fun m p => f p.2 p.1 m) m

theorem runMotion_inv (f : ℝ → ℝ → MotionState → MotionState) (P : MotionState → Prop)
    (hstep : ∀ r d m, 0 ≤ d → P m → P (f r d m)) :
    ∀ (seq : List (ℝ × ℝ)) (m : MotionState), (∀ p ∈ seq, 0 ≤ p.1) → P m →
      P (runMotion f seq m) := by
  intro seq
  induction seq with
  | nil => intro m _ h; exact h
  | cons p t ih =>
    intro m hdts h
    have h1 : P (f p.2 p.1 m) := hstep p.2 p.1 m (hdts p (by simp)) h
    exact ih (f p.2 p.1 m) (fun q hq => hdts q (by simp [hq])) h1

theorem bob_step_bound (o : ObjectRenderer) (rand dt : ℝ) (m : MotionState)
    (hmax : 0 ≤ o.bbox.maxY) (hdt : 0 ≤ dt)
    (h : |m.pos.y - spawnY o| ≤ o.bbox.maxY * 0.15) :
    |(miscBobMotionFunc rand o dt m).1.pos.y - spawnY o| ≤ o.bbox.maxY * 0.15 := by
  have hsin : ∀ a : ℝ, |o.bbox.maxY * 0.15 * Real.sin a| ≤ o.bbox.maxY * 0.15 := by
    intro a
    rw [abs_mul]
    have h1 : |Real.sin a| ≤ 1 := abs_le.mpr ⟨Real.neg_one_le_sin a, Real.sin_le_one a⟩
    have h2 : |o.bbox.maxY * 0.15| = o.bbox.maxY * 0.15 := abs_of_nonneg (by linarith)
    nlinarith [abs_nonneg (o.bbox.maxY * 0.15)]
  by_cases h1 : m.timer = -1 <;>
    simp only [miscBobMotionFunc, h1, if_true, if_false, reduceIte] <;>
    [skip; skip] <;>
  · split
    · rw [spawnY, add_sub_cancel_left]
      apply hsin
    · exact h

theorem whack_active_bound (o : ObjectRenderer) (hbd : 0 ≤ whackBuriedDepth o)
    (st : ℤ) (a : ℝ) (ha0 : 0 ≤ a) (hapi : a ≤ Real.pi) :
    spawnY o ≤ spawnY o + whackBuriedDepth o *
      (if st = 0 then 1 - Real.sin a else Real.sin a) ∧
    spawnY o + whackBuriedDepth o * (if st = 0 then 1 - Real.sin a else Real.sin a)
      ≤ spawnY o + whackBuriedDepth o := by
  have hs0 : 0 ≤ Real.sin a := Real.sin_nonneg_of_nonneg_of_le_pi ha0 hapi
  have hs1 : Real.sin a ≤ 1 := Real.sin_le_one a
  split <;> constructor <;> nlinarith

/-- The inductive invariant of the whack-a-mole motion. -/
def WhackInv (o : ObjectRenderer) (m : MotionState) : Prop :=
  spawnY o ≤ m.pos.y ∧ m.pos.y ≤ spawnY o + whackBuriedDepth o ∧
    0 ≤ m.angle ∧ 0 ≤ m.angleStep

theorem whack_step_inv (o : ObjectRenderer) (rand dt : ℝ) (m : MotionState)
    (hbd : 0 ≤ whackBuriedDepth o) (hdt : 0 ≤ dt) (h : WhackInv o m) :
    WhackInv o (miscWhackAMoleMotionFunc rand o dt m).1 := by
  obtain ⟨hp1, hp2, ha, has⟩ := h
  have hpi : (0:ℝ) < Real.pi := Real.pi_pos
  by_cases h1 : m.timer = -1
  · simp only [miscWhackAMoleMotionFunc, h1, if_true, if_false, reduceIte]
    by_cases h2 : rand * 150 + 60 < dt
    · simp only [h2, if_true, reduceIte]
      by_cases h3 : Real.pi < Real.pi / 2 + Real.pi / 45 * dt
      · simp only [h3, if_true, reduceIte]
        have hb := whack_active_bound o hbd (jsRem (m.state + 1) 2) 0 le_rfl (le_of_lt hpi)
        exact ⟨hb.1, hb.2, le_rfl, by positivity⟩
      · simp only [h3, if_false, reduceIte]
        have ha1 : 0 ≤ Real.pi / 2 + Real.pi / 45 * dt := by positivity
        have hb := whack_active_bound o hbd (jsRem (m.state + 1) 2) _ ha1 (le_of_not_lt h3)
        exact ⟨hb.1, hb.2, ha1, by positivity⟩
    · simp only [h2, if_false, reduceIte]
      exact ⟨hp1, hp2, by positivity, by positivity⟩
  · simp only [miscWhackAMoleMotionFunc, h1, if_true, if_false, reduceIte]
    by_cases h2 : m.timer < dt
    · simp only [h2, if_true, reduceIte]
      by_cases h3 : Real.pi < m.angle + m.angleStep * dt
      · simp only [h3, if_true, reduceIte]
        have hb := whack_active_bound o hbd m.state 0 le_rfl (le_of_lt hpi)
        exact ⟨hb.1, hb.2, le_rfl, has⟩
      · simp only [h3, if_false, reduceIte]
        have ha1 : 0 ≤ m.angle + m.angleStep * dt := by positivity
        have hb := whack_active_bound o hbd m.state _ ha1 (le_of_not_lt h3)
        exact ⟨hb.1, hb.2, ha1, has⟩
    · simp only [h2, if_false, reduceIte]
      exact ⟨hp1, hp2, ha, has⟩

/-- Claim C7: starting from the spawn-time motion state, over any sequence of
frames with nonnegative time deltas, the bob motion keeps the vertical
position within bbox.maxY * 0.15 of the spawn height, and the whack-a-mole
motion keeps it within [spawn height, spawn height + buriedDepth] where
buriedDepth = firstBBox.maxY + (firstBBox.maxY - firstBBox.minY). -/
theorem bob_whack_vertical_bounds (o : ObjectRenderer) (seq : List (ℝ × ℝ))
    (pathPoints : List ℝ) (speed : ℝ) (adjustPitch : Bool)
    (hmax : 0 ≤ o.bbox.maxY)
    (hbb : (firstInst o).binModelBBox.minY ≤ (firstInst o).binModelBBox.maxY)
    (hbb0 : 0 ≤ (firstInst o).binModelBBox.maxY)
    (hdts : ∀ p ∈ seq, 0 ≤ p.1) :
    |(runMotion (fun r d m => (miscBobMotionFunc r o d m).1) seq
        (initMotionState o pathPoints speed adjustPitch)).pos.y - spawnY o|
      ≤ o.bbox.maxY * 0.15 ∧
    spawnY o ≤ (runMotion (fun r d m => (miscWhackAMoleMotionFunc r o d m).1) seq
        (initMotionState o pathPoints speed adjustPitch)).pos.y ∧
    (runMotion (fun r d m => (miscWhackAMoleMotionFunc r o d m).1) seq
        (initMotionState o pathPoints speed adjustPitch)).pos.y
      ≤ spawnY o + whackBuriedDepth o := by
  have hbd : 0 ≤ whackBuriedDepth o := by
    unfold whackBuriedDepth
    linarith
  have hinit : (initMotionState o pathPoints speed adjustPitch).pos.y = spawnY o := rfl
  constructor
  · exact runMotion_inv _ (fun m => |m.pos.y - spawnY o| ≤ o.bbox.maxY * 0.15)
      (fun r d m hd hm => bob_step_bound o r d m hmax hd hm) seq _ hdts
      (by simp only [hinit, sub_self, abs_zero]; positivity)
  · have hinv : WhackInv o (initMotionState o pathPoints speed adjustPitch) := by
      refine ⟨le_of_eq hinit.symm, ?_, le_rfl, le_rfl⟩
      rw [hinit]
      linarith
    have hrun := runMotion_inv _ (WhackInv o)
      (fun r d m hd hm => whack_step_inv o r d m hbd hd hm) seq _ hdts hinv
    exact ⟨hrun.1, hrun.2.1⟩

/-- Witness for C7: a concrete object and a two-frame run. -/
def cexBobObj : ObjectRenderer := { baseObj with bbox := ⟨-2, 2⟩ }

theorem bob_whack_vertical_bounds_witness :
    |(runMotion (fun r d m => (miscBobMotionFunc r cexBobObj d m).1) [(1, 0), (1, 1/2)]
        (initMotionState cexBobObj [] 0 false)).pos.y - spawnY cexBobObj|
      ≤ cexBobObj.bbox.maxY * 0.15 ∧
    spawnY cexBobObj ≤ (runMotion (fun r d m => (miscWhackAMoleMotionFunc r cexBobObj d m).1)
        [(1, 0), (1, 1/2)] (initMotionState cexBobObj [] 0 false)).pos.y ∧
    (runMotion (fun r d m => (miscWhackAMoleMotionFunc r cexBobObj d m).1) [(1, 0), (1, 1/2)]
        (initMotionState cexBobObj [] 0 false)).pos.y
      ≤ spawnY cexBobObj + whackBuriedDepth cexBobObj := by
  refine bob_whack_vertical_bounds cexBobObj [(1, 0), (1, 1/2)] [] 0 false ?_ ?_ ?_ ?_
  · norm_num [cexBobObj, baseObj]
  · norm_num [cexBobObj, baseObj, firstInst, defaultBMI]
  · norm_num [cexBobObj, baseObj, firstInst, defaultBMI]
  · intro p hp
    fin_cases hp <;> norm_num

/-- Iterated calls of adjustBasePitch with a fixed frame delta. -/
def adjustIter (dt : ℝ) (m : MotionState) : ℕ → MotionState
  | 0 => m
  | k + 1 => adjustBasePitch (adjustIter dt m k) dt

theorem adjustBasePitch_eq_self (m : MotionState) (dt : ℝ) (h : m.angleStep * dt = 0) :
    adjustBasePitch m dt = m := by
  simp only [adjustBasePitch]
  rw [if_pos h]

theorem adjustBasePitch_snap (m : MotionState) (dt : ℝ) (h : m.angleStep * dt ≠ 0)
    (h2 : (m.angleTarget - (m.angle + m.angleStep * dt)) * m.angleStep < 0) :
    (adjustBasePitch m dt).angle = m.angleTarget ∧ (adjustBasePitch m dt).angleStep = 0 := by
  simp only [adjustBasePitch]
  rw [if_neg h, if_pos h2]
  exact ⟨rfl, rfl⟩

theorem adjustBasePitch_cont (m : MotionState) (dt : ℝ) (h : m.angleStep * dt ≠ 0)
    (h2 : ¬((m.angleTarget - (m.angle + m.angleStep * dt)) * m.angleStep < 0)) :
    (adjustBasePitch m dt).angle = m.angle + m.angleStep * dt ∧
    (adjustBasePitch m dt).angleStep = m.angleStep := by
  simp only [adjustBasePitch]
  rw [if_neg h, if_neg h2]
  exact ⟨rfl, rfl⟩

theorem adjustBasePitch_angleTarget (m : MotionState) (dt : ℝ) :
    (adjustBasePitch m dt).angleTarget = m.angleTarget := by
  simp only [adjustBasePitch]
  split
  · rfl
  · split <;> rfl

theorem adjustIter_cases (m : MotionState) (dt : ℝ) (hs : m.angleStep ≠ 0) (hdt : 0 < dt)
    (h0 : 0 ≤ (m.angleTarget - m.angle) * m.angleStep) :
    ∀ k : ℕ,
      ((adjustIter dt m k).angle = m.angleTarget ∧ (adjustIter dt m k).angleStep = 0) ∨
      ((adjustIter dt m k).angle = m.angle + k * (m.angleStep * dt) ∧
       (adjustIter dt m k).angleStep = m.angleStep ∧
       (adjustIter dt m k).angleTarget = m.angleTarget ∧
       0 ≤ (m.angleTarget - (adjustIter dt m k).angle) * m.angleStep) := by
  have hsd : m.angleStep * dt ≠ 0 := mul_ne_zero hs (ne_of_gt hdt)
  intro k
  induction k with
  | zero => right; refine ⟨by simp [adjustIter], rfl, rfl, by simpa [adjustIter] using h0⟩
  | succ k ih =>
    rcases ih with ⟨hA, hS⟩ | ⟨hA, hS, hT, hP⟩
    · left
      have hz : (adjustIter dt m k).angleStep * dt = 0 := by rw [hS]; ring
      have he : adjustIter dt m (k + 1) = adjustIter dt m k := by
        show adjustBasePitch (adjustIter dt m k) dt = adjustIter dt m k
        exact adjustBasePitch_eq_self _ dt hz
      rw [he]
      exact ⟨hA, hS⟩
    · have hsd' : (adjustIter dt m k).angleStep * dt ≠ 0 := by rw [hS]; exact hsd
      by_cases hov : ((adjustIter dt m k).angleTarget -
          ((adjustIter dt m k).angle + (adjustIter dt m k).angleStep * dt)) *
          (adjustIter dt m k).angleStep < 0
      · left
        have hsn := adjustBasePitch_snap (adjustIter dt m k) dt hsd' hov
        exact ⟨by rw [show adjustIter dt m (k+1) =
            adjustBasePitch (adjustIter dt m k) dt from rfl, hsn.1, hT],
          by rw [show adjustIter dt m (k+1) =
            adjustBasePitch (adjustIter dt m k) dt from rfl, hsn.2]⟩
      · right
        have hcont := adjustBasePitch_cont (adjustIter dt m k) dt hsd' hov
        have e1 : adjustIter dt m (k+1) = adjustBasePitch (adjustIter dt m k) dt := rfl
        have hA' : (adjustIter dt m (k+1)).angle = m.angle + (k+1 : ℕ) * (m.angleStep * dt) := by
          rw [e1, hcont.1, hA, hS]
          push_cast
          ring
        refine ⟨hA', by rw [e1, hcont.2, hS],
          by rw [e1, adjustBasePitch_angleTarget, hT], ?_⟩
        rw [hT, hA, hS] at hov
        have h2 := not_lt.mp hov
        rw [hA']
        have he : (m.angleTarget - (m.angle + ((k : ℝ) + 1) * (m.angleStep * dt))) * m.angleStep
            = (m.angleTarget - (m.angle + (k : ℝ) * (m.angleStep * dt) + m.angleStep * dt)) *
              m.angleStep := by ring
        push_cast
        rw [he]
        exact h2

/-- Claim C3 (amended): the pitch blend never observably overshoots — after any
call that actually advances, the remaining progress times the step is
nonnegative; an overshooting advance snaps angle exactly to angleTarget and
zeroes angleStep; once angleStep * dt is zero the call changes nothing (in
particular base never changes again once the step is zero); and with a fixed
positive frame delta the iteration reaches angle = angleTarget with
angleStep = 0 in finitely many steps and stays there.  (It is NOT true that
angle = angleTarget forces angleStep = 0: an exact landing keeps the step,
see the counterexample.) -/
theorem adjustBasePitch_progress (m : MotionState) (dt : ℝ) :
    (m.angleStep * dt = 0 → adjustBasePitch m dt = m) ∧
    (m.angleStep * dt ≠ 0 →
      0 ≤ ((adjustBasePitch m dt).angleTarget - (adjustBasePitch m dt).angle) *
        (adjustBasePitch m dt).angleStep) ∧
    (m.angleStep * dt ≠ 0 →
      (m.angleTarget - (m.angle + m.angleStep * dt)) * m.angleStep < 0 →
      (adjustBasePitch m dt).angle = m.angleTarget ∧ (adjustBasePitch m dt).angleStep = 0) ∧
    (m.angleStep ≠ 0 → 0 < dt → 0 ≤ (m.angleTarget - m.angle) * m.angleStep →
      ∃ N : ℕ, ∀ k, N ≤ k → (adjustIter dt m k).angle = m.angleTarget ∧
        (adjustIter dt m k).angleStep = 0) := by
  refine ⟨adjustBasePitch_eq_self m dt, ?_, adjustBasePitch_snap m dt, ?_⟩
  · intro h
    by_cases hov : (m.angleTarget - (m.angle + m.angleStep * dt)) * m.angleStep < 0
    · have hsn := adjustBasePitch_snap m dt h hov
      rw [hsn.1, hsn.2, adjustBasePitch_angleTarget]
      simp
    · have hcont := adjustBasePitch_cont m dt h hov
      rw [hcont.1, hcont.2, adjustBasePitch_angleTarget]
      linarith [not_lt.mp hov]
  · intro hs hdt h0
    have hcases := adjustIter_cases m dt hs hdt h0
    have hds : 0 < m.angleStep ^ 2 * dt := by positivity
    obtain ⟨N, hN⟩ := exists_nat_gt ((m.angleTarget - m.angle) * m.angleStep /
      (m.angleStep ^ 2 * dt))
    refine ⟨N, fun k hk => ?_⟩
    rcases hcases k with h | ⟨hA, _, _, hP⟩
    · exact h
    · exfalso
      rw [hA] at hP
      have hkB : (k : ℝ) * (m.angleStep ^ 2 * dt) ≤ (m.angleTarget - m.angle) * m.angleStep := by
        nlinarith [hP]
      have hNk : (N : ℝ) ≤ (k : ℝ) := Nat.cast_le.mpr hk
      have : (m.angleTarget - m.angle) * m.angleStep / (m.angleStep ^ 2 * dt) < (k : ℝ) := by
        calc (m.angleTarget - m.angle) * m.angleStep / (m.angleStep ^ 2 * dt)
            < (N : ℝ) := hN
          _ ≤ (k : ℝ) := hNk
      have hle : (k : ℝ) ≤ (m.angleTarget - m.angle) * m.angleStep / (m.angleStep ^ 2 * dt) :=
        (le_div_iff hds).mpr hkB
      linarith

/-- Counterexample input for C3: a blend that lands exactly on its target. -/
def cexPitch : MotionState := { baseMS with angleTarget := 1, angleStep := 1 }

/-- Counterexample for C3 as stated: after one call, angle equals angleTarget
yet angleStep is not 0 (the code only zeroes the step on strict overshoot,
delta < 0, so an exact landing keeps a nonzero step). -/
theorem adjustBasePitch_exact_landing_keeps_step :
    (adjustBasePitch cexPitch 1).angle = (adjustBasePitch cexPitch 1).angleTarget ∧
    (adjustBasePitch cexPitch 1).angleStep ≠ 0 := by
  have h : cexPitch.angleStep * (1 : ℝ) ≠ 0 := by norm_num [cexPitch, baseMS]
  have h2 : ¬((cexPitch.angleTarget - (cexPitch.angle + cexPitch.angleStep * 1)) *
      cexPitch.angleStep < 0) := by norm_num [cexPitch, baseMS]
  have hc := adjustBasePitch_cont cexPitch 1 h h2
  rw [hc.1, hc.2, adjustBasePitch_angleTarget]
  norm_num [cexPitch, baseMS]

/-- Witness input for C3: a blend with step 1/2 toward target 1. -/
def cexPitch2 : MotionState := { baseMS with angleTarget := 1, angleStep := 1/2 }

theorem adjustBasePitch_progress_witness :
    ∃ N : ℕ, ∀ k, N ≤ k → (adjustIter 1 cexPitch2 k).angle = cexPitch2.angleTarget ∧
      (adjustIter 1 cexPitch2 k).angleStep = 0 :=
  (adjustBasePitch_progress cexPitch2 1).2.2.2 (by norm_num [cexPitch2, baseMS])
    (by norm_num) (by norm_num [cexPitch2, baseMS])

theorem vdist_pos (a b : Vec3) (h : a ≠ b) : 0 < vdist a b := by
  unfold vdist vlength vsub
  dsimp
  apply Real.sqrt_pos.mpr
  by_contra hle
  push_neg at hle
  have hsx := sq_nonneg (a.x - b.x)
  have hsy := sq_nonneg (a.y - b.y)
  have hsz := sq_nonneg (a.z - b.z)
  have h1 : (a.x - b.x) ^ 2 = 0 := le_antisymm (by linarith) hsx
  have h2 : (a.y - b.y) ^ 2 = 0 := le_antisymm (by linarith) hsy
  have h3 : (a.z - b.z) ^ 2 = 0 := le_antisymm (by linarith) hsz
  have e1 : a.x = b.x := sub_eq_zero.mp (pow_eq_zero_iff two_ne_zero |>.mp h1)
  have e2 : a.y = b.y := sub_eq_zero.mp (pow_eq_zero_iff two_ne_zero |>.mp h2)
  have e3 : a.z = b.z := sub_eq_zero.mp (pow_eq_zero_iff two_ne_zero |>.mp h3)
  exact h (Vec3.ext e1 e2 e3)

theorem vadd_vscale_zero (a v : Vec3) : vadd a (vscale v 0) = a := by
  unfold vadd vscale
  exact Vec3.ext (by dsimp; ring) (by dsimp; ring) (by dsimp; ring)

theorem angleDist_self (a : ℝ) : angleDist a a = 0 := by
  unfold angleDist
  have h : (a - a + Real.pi) / (2 * Real.pi) = 1 / 2 := by
    rw [sub_self, zero_add]
    field_simp
    ring
  rw [h]
  have h2 : ⌊(1 / 2 : ℝ)⌋ = 0 := by norm_num
  rw [h2]
  simp

/-- Claim C2 (amended): for every initialized motion state (pathIndex is no
longer -1) that has not reached its target (pos differs from target) and whose
yaw step sign agrees with the sign of the remaining yaw distance (an invariant
every followPath call re-establishes, see followPath_yaw_sign_invariant),
calling followPath with deltaTimeInFrames = 0 leaves pos, euler and pathIndex
unchanged.  On an uninitialized state (pathIndex = -1) a zero-delta call DOES
change them, see the counterexample. -/
theorem followPath_zero_dt (o : ObjectRenderer) (m : MotionState)
    (hinit : 0 ≤ m.pathIndex) (hpt : m.pos ≠ m.target)
    (hsig : jsSign m.eulerStep.y = jsSign (angleDist m.euler.y m.eulerTarget.y)) :
    (followPath o 0 m).1.pos = m.pos ∧ (followPath o 0 m).1.euler = m.euler ∧
    (followPath o 0 m).1.pathIndex = m.pathIndex := by
  have hni : ¬(m.pathIndex < 0) := not_lt.mpr hinit
  have hd0 : ¬(vdist m.target m.pos ≤ 0) :=
    not_le.mpr (vdist_pos m.target m.pos (fun he => hpt he.symm))
  have hd : ¬(vdist m.target m.pos ≤ m.speed * 0) := by
    rw [mul_zero]
    exact hd0
  have hm2 : (if m.adjustPitch = true then adjustBasePitch m 0 else m) = m := by
    split
    · exact adjustBasePitch_eq_self m 0 (mul_zero _)
    · rfl
  have hs0 : jsSign m.eulerStep.y =
      jsSign (angleDist (m.euler.y + m.eulerStep.y * 0) m.eulerTarget.y) := by
    rw [mul_zero, add_zero]
    exact hsig
  have hya : yawAdvance 0 m =
      { m with euler := { m.euler with y := m.euler.y + m.eulerStep.y * 0 } } := by
    simp only [yawAdvance]
    rw [if_neg (not_ne_iff.mpr hs0)]
  simp only [followPath, if_neg hni, hm2, if_neg hd, mul_zero, if_neg hd0, hya, add_zero]
  refine ⟨?_, ?_, ?_⟩ <;> first | exact vadd_vscale_zero _ _ | rfl | trivial

/-- Witness input for C2's amended theorem. -/
def cexZeroDt : MotionState := { baseMS with target := ⟨10, 0, 0⟩, speed := 1 }

theorem followPath_zero_dt_witness :
    (followPath baseObj 0 cexZeroDt).1.pos = cexZeroDt.pos ∧
    (followPath baseObj 0 cexZeroDt).1.euler = cexZeroDt.euler ∧
    (followPath baseObj 0 cexZeroDt).1.pathIndex = cexZeroDt.pathIndex := by
  refine followPath_zero_dt baseObj cexZeroDt (by norm_num [cexZeroDt, baseMS]) ?_ ?_
  · intro h
    have hx : (0 : ℝ) = 10 := congrArg Vec3.x h
    norm_num at hx
  · have h1 : cexZeroDt.eulerStep.y = 0 := rfl
    have h2 : cexZeroDt.euler.y = 0 := rfl
    have h3 : cexZeroDt.eulerTarget.y = 0 := rfl
    rw [h1, h2, h3, angleDist_self]

theorem adjustBasePitch_preserves (m : MotionState) (dt : ℝ) :
    (adjustBasePitch m dt).pathIndex = m.pathIndex ∧
    (adjustBasePitch m dt).pathPoints = m.pathPoints ∧
    (adjustBasePitch m dt).pos = m.pos ∧
    (adjustBasePitch m dt).target = m.target ∧
    (adjustBasePitch m dt).speed = m.speed ∧
    (adjustBasePitch m dt).euler = m.euler ∧
    (adjustBasePitch m dt).eulerStep = m.eulerStep ∧
    (adjustBasePitch m dt).eulerTarget = m.eulerTarget ∧
    (adjustBasePitch m dt).velocity = m.velocity := by
  simp only [adjustBasePitch]
  split
  · exact ⟨rfl, rfl, rfl, rfl, rfl, rfl, rfl, rfl, rfl⟩
  · split <;> exact ⟨rfl, rfl, rfl, rfl, rfl, rfl, rfl, rfl, rfl⟩

theorem targetNextPoint_pathIndex (m : MotionState) (y : ℝ) :
    (targetNextPoint m y).pathIndex = tnpNewIndex m := by
  simp only [targetNextPoint]
  split <;> rfl

theorem targetNextPoint_pathPoints (m : MotionState) (y : ℝ) :
    (targetNextPoint m y).pathPoints = m.pathPoints := by
  simp only [targetNextPoint]
  split <;> rfl

theorem tnpNewIndex_adjust (m : MotionState) (dt : ℝ) :
    tnpNewIndex (adjustBasePitch m dt) = tnpNewIndex m := by
  unfold tnpNewIndex
  rw [(adjustBasePitch_preserves m dt).1, (adjustBasePitch_preserves m dt).2.1]

theorem tnpNewIndex_bounds (m : MotionState) (n : ℕ)
    (hlen : m.pathPoints.length = 4 * n) (h0 : 0 ≤ m.pathIndex)
    (h1 : m.pathIndex < (n : ℤ)) :
    0 ≤ tnpNewIndex m ∧ tnpNewIndex m < (n : ℤ) := by
  unfold tnpNewIndex
  rw [hlen]
  push_cast
  split_ifs with hc <;> omega

theorem findLoop_minPoint_nonneg (pos : Vec3) (path : List ℝ) :
    ∀ (k : ℕ) (i : ℤ) (st : FindSt), 0 ≤ st.minPoint → 0 ≤ i →
      0 ≤ (findLoop pos path i k st).minPoint := by
  intro k
  induction k with
  | zero => intro i st h _; exact h
  | succ k ih =>
    intro i st h hi
    show 0 ≤ (findLoop pos path (i + 1) k (findStep pos path st i)).minPoint
    apply ih
    · simp only [findStep]
      split_ifs <;> simp_all
    · omega

theorem findPathStartIndex_nonneg (pos : Vec3) (path : List ℝ) :
    0 ≤ findPathStartIndex pos path := by
  simp only [findPathStartIndex]
  split_ifs with h1 h2
  · exact le_refl 0
  · exact le_refl 0
  · exact le_trans (findLoop_minPoint_nonneg pos path _ 1 _ (le_refl 0) (by norm_num))
      (le_max_left _ _)

theorem followPath_step_inv (o : ObjectRenderer) (dt : ℝ) (m : MotionState) (n : ℕ)
    (hlen : m.pathPoints.length = 4 * n)
    (h0 : 0 ≤ m.pathIndex) (h1 : m.pathIndex < (n : ℤ)) :
    0 ≤ (followPath o dt m).1.pathIndex ∧ (followPath o dt m).1.pathIndex < (n : ℤ) ∧
    (followPath o dt m).1.pathPoints = m.pathPoints := by
  have hni : ¬(m.pathIndex < 0) := not_lt.mpr h0
  simp only [followPath, if_neg hni, yawAdvance_pathIndex, yawAdvance_pathPoints,
    apply_ite MotionState.pathIndex, apply_ite MotionState.pathPoints,
    apply_ite tnpNewIndex, targetNextPoint_pathIndex, targetNextPoint_pathPoints,
    tnpNewIndex_adjust, (adjustBasePitch_preserves m dt).1,
    (adjustBasePitch_preserves m dt).2.1, ite_self]
  split_ifs <;>
    first
      | exact ⟨h0, h1, trivial⟩
      | exact ⟨(tnpNewIndex_bounds m n hlen h0 h1).1,
          (tnpNewIndex_bounds m n hlen h0 h1).2, trivial⟩

/-- A concrete 3-waypoint path on a line (stride 4, three points at x = 0,
10, 20). -/
def cpath : List ℝ := [0, 0, 0, 0, 10, 0, 0, 0, 20, 0, 0, 0]

theorem vdist_eq (a b : Vec3) (r : ℝ) (hr : 0 ≤ r)
    (h : (a.x - b.x) ^ 2 + (a.y - b.y) ^ 2 + (a.z - b.z) ^ 2 = r ^ 2) : vdist a b = r := by
  unfold vdist vlength vsub
  dsimp
  rw [h, Real.sqrt_sq hr]

theorem cpath_p0 : pathPointV cpath 0 = ⟨0, 0, 0⟩ := rfl

theorem cpath_p1 : pathPointV cpath 1 = ⟨10, 0, 0⟩ := rfl

theorem cpath_p2 : pathPointV cpath 2 = ⟨20, 0, 0⟩ := rfl

/-- Index 3 is one past the last waypoint: the JS Float32Array read yields NaN
there; modelled as 0. -/
theorem cpath_p3 : pathPointV cpath 3 = ⟨0, 0, 0⟩ := rfl

theorem dut0 : vdist ⟨0, 0, 0⟩ (pathPointV cpath 0) = 0 := by
  rw [cpath_p0]; exact vdist_eq _ _ 0 le_rfl (by norm_num)

theorem dut1 : vdist ⟨0, 0, 0⟩ (pathPointV cpath 1) = 10 := by
  rw [cpath_p1]; exact vdist_eq _ _ 10 (by norm_num) (by norm_num)

theorem dut2 : vdist ⟨0, 0, 0⟩ (pathPointV cpath 2) = 20 := by
  rw [cpath_p2]; exact vdist_eq _ _ 20 (by norm_num) (by norm_num)

theorem dvt0 : vdist ⟨20, 0, 0⟩ (pathPointV cpath 0) = 20 := by
  rw [cpath_p0]; exact vdist_eq _ _ 20 (by norm_num) (by norm_num)

theorem dvt1 : vdist ⟨20, 0, 0⟩ (pathPointV cpath 1) = 10 := by
  rw [cpath_p1]; exact vdist_eq _ _ 10 (by norm_num) (by norm_num)

theorem dvt2 : vdist ⟨20, 0, 0⟩ (pathPointV cpath 2) = 0 := by
  rw [cpath_p2]; exact vdist_eq _ _ 0 le_rfl (by norm_num)

theorem cpath_iters : (cpath.length + 3) / 4 - 1 = 2 := by norm_num [cpath]

theorem findStart_at_0 : findPathStartIndex ⟨0, 0, 0⟩ cpath = 1 := by
  simp only [findPathStartIndex, cpath_iters]
  rw [show findLoop ⟨0, 0, 0⟩ cpath 1 2 ⟨0, -1, 0, vdist ⟨0, 0, 0⟩ (pathPointV cpath 0)⟩ =
    findStep ⟨0, 0, 0⟩ cpath
      (findStep ⟨0, 0, 0⟩ cpath ⟨0, -1, 0, vdist ⟨0, 0, 0⟩ (pathPointV cpath 0)⟩ 1) 2
    from rfl]
  norm_num [findStep, dut0, dut1, dut2, max_def]

theorem findStart_at_20 : findPathStartIndex ⟨20, 0, 0⟩ cpath = 2 := by
  simp only [findPathStartIndex, cpath_iters]
  rw [show findLoop ⟨20, 0, 0⟩ cpath 1 2 ⟨0, -1, 0, vdist ⟨20, 0, 0⟩ (pathPointV cpath 0)⟩ =
    findStep ⟨20, 0, 0⟩ cpath
      (findStep ⟨20, 0, 0⟩ cpath ⟨0, -1, 0, vdist ⟨20, 0, 0⟩ (pathPointV cpath 0)⟩ 1) 2
    from rfl]
  norm_num [findStep, dvt0, dvt1, dvt2, max_def]

theorem fpInit_pathIndex (o : ObjectRenderer) (m0 : MotionState) :
    (fpInit o m0).pathIndex = findPathStartIndex m0.pos m0.pathPoints + 1 := rfl

theorem fpInit_pathPoints (o : ObjectRenderer) (m0 : MotionState) :
    (fpInit o m0).pathPoints = m0.pathPoints := rfl

theorem fpInit_adjustPitch (o : ObjectRenderer) (m0 : MotionState) :
    (fpInit o m0).adjustPitch = m0.adjustPitch := rfl

theorem fpInit_speed (o : ObjectRenderer) (m0 : MotionState) :
    (fpInit o m0).speed = m0.speed := rfl

theorem fpInit_pos (o : ObjectRenderer) (m0 : MotionState) :
    (fpInit o m0).pos =
      ⟨(pathPointV m0.pathPoints (findPathStartIndex m0.pos m0.pathPoints)).x,
       (pathPointV m0.pathPoints (findPathStartIndex m0.pos m0.pathPoints)).y - o.bbox.maxY,
       (pathPointV m0.pathPoints (findPathStartIndex m0.pos m0.pathPoints)).z⟩ := rfl

theorem fpInit_target (o : ObjectRenderer) (m0 : MotionState) :
    (fpInit o m0).target =
      ⟨(pathPointV m0.pathPoints (findPathStartIndex m0.pos m0.pathPoints + 1)).x,
       (pathPointV m0.pathPoints (findPathStartIndex m0.pos m0.pathPoints + 1)).y -
         o.bbox.maxY,
       (pathPointV m0.pathPoints (findPathStartIndex m0.pos m0.pathPoints + 1)).z⟩ := rfl

/-- On an uninitialized state, followPath behaves exactly like followPath on
the initialized state (the init block runs and the rest of the pipeline sees
the initialized state, whose pathIndex is nonnegative). -/
theorem followPath_uninit (o : ObjectRenderer) (dt : ℝ) (m0 : MotionState)
    (h : m0.pathIndex < 0) : followPath o dt m0 = followPath o dt (fpInit o m0) := by
  have h2 : ¬((fpInit o m0).pathIndex < 0) := by
    rw [fpInit_pathIndex]
    have := findPathStartIndex_nonneg m0.pos m0.pathPoints
    omega
  simp only [followPath, if_pos h, if_neg h2]

/-- Run followPath over a list of frame deltas. -/
def runPath (o : ObjectRenderer) (dts : List ℝ) (m : MotionState) : MotionState :=
  dts.foldl (fun m dt => (followPath o dt m).1) m

theorem runPath_inv (o : ObjectRenderer) (n : ℕ) :
    ∀ (dts : List ℝ) (m : MotionState), m.pathPoints.length = 4 * n →
      0 ≤ m.pathIndex → m.pathIndex < (n : ℤ) →
      0 ≤ (runPath o dts m).pathIndex ∧ (runPath o dts m).pathIndex < (n : ℤ) := by
  intro dts
  induction dts with
  | nil => intro m _ h0 h1; exact ⟨h0, h1⟩
  | cons d t ih =>
    intro m hlen h0 h1
    have hs := followPath_step_inv o d m n hlen h0 h1
    have hlen2 : (followPath o d m).1.pathPoints.length = 4 * n := by rw [hs.2.2, hlen]
    exact ih _ hlen2 hs.1 hs.2.1

/-- Claim C1 (amended): starting uninitialized, provided the chosen start
waypoint is not the last one (so that the unchecked pathIndex++ of the init
block stays below the waypoint count), pathIndex lies in [0, pathPointCount)
after every followPath update, the wrap in targetNextPoint keeping it there;
when the chosen start IS the last waypoint, initialization sets pathIndex to
pathPointCount itself, out of range (see the counterexample). -/
theorem followPath_pathIndex_in_range (o : ObjectRenderer) (n : ℕ) (m0 : MotionState)
    (dt : ℝ) (dts : List ℝ)
    (hlen : m0.pathPoints.length = 4 * n)
    (hinit : m0.pathIndex = -1)
    (hstart : findPathStartIndex m0.pos m0.pathPoints + 1 < (n : ℤ)) :
    0 ≤ (runPath o (dt :: dts) m0).pathIndex ∧
    (runPath o (dt :: dts) m0).pathIndex < (n : ℤ) := by
  have hneg : m0.pathIndex < 0 := by rw [hinit]; norm_num
  have hrw : runPath o (dt :: dts) m0 = runPath o dts (followPath o dt m0).1 := rfl
  rw [hrw, followPath_uninit o dt m0 hneg]
  have hI0 : 0 ≤ (fpInit o m0).pathIndex := by
    rw [fpInit_pathIndex]
    have := findPathStartIndex_nonneg m0.pos m0.pathPoints
    omega
  have hI1 : (fpInit o m0).pathIndex < (n : ℤ) := by rw [fpInit_pathIndex]; exact hstart
  have hIlen : (fpInit o m0).pathPoints.length = 4 * n := by
    rw [fpInit_pathPoints]; exact hlen
  have hs := followPath_step_inv o dt (fpInit o m0) n hIlen hI0 hI1
  have hlen2 : (followPath o dt (fpInit o m0)).1.pathPoints.length = 4 * n := by
    rw [hs.2.2]; exact hIlen
  exact runPath_inv o n dts _ hlen2 hs.1 hs.2.1

/-- Uninitialized state sitting on the last waypoint of cpath. -/
def cexC1 : MotionState :=
  { baseMS with pathPoints := cpath, pathIndex := -1, pos := ⟨20, 0, 0⟩, speed := 1 }

/-- Uninitialized state sitting on the first waypoint of cpath. -/
def cexC2 : MotionState := { baseMS with pathPoints := cpath, pathIndex := -1, speed := 1 }

/-- When the distance check fails, followPath does not advance the waypoint
and pathIndex is unchanged. -/
theorem followPath_pathIndex_no_advance (o : ObjectRenderer) (dt : ℝ) (m : MotionState)
    (h0 : ¬(m.pathIndex < 0))
    (hd : ¬(vdist m.target m.pos ≤ m.speed * dt)) :
    (followPath o dt m).1.pathIndex = m.pathIndex := by
  simp only [followPath, if_neg h0, yawAdvance_pathIndex, apply_ite MotionState.pathIndex,
    apply_ite MotionState.target, apply_ite MotionState.pos, apply_ite MotionState.speed,
    apply_ite tnpNewIndex, targetNextPoint_pathIndex, tnpNewIndex_adjust,
    (adjustBasePitch_preserves m dt).1, (adjustBasePitch_preserves m dt).2.2.1,
    (adjustBasePitch_preserves m dt).2.2.2.1, (adjustBasePitch_preserves m dt).2.2.2.2.1,
    ite_self, if_neg hd]

/-- Counterexample for C2 as stated: on the reachable uninitialized state
(pathIndex = -1), a followPath call with deltaTimeInFrames = 0 changes
pathIndex (and pos): the init block runs regardless of the time delta. -/
theorem followPath_zero_dt_changes_uninitialized :
    cexC2.pathIndex = -1 ∧ (followPath baseObj 0 cexC2).1.pathIndex = 2 ∧
    (followPath baseObj 0 cexC2).1.pathIndex ≠ cexC2.pathIndex := by
  have hneg : cexC2.pathIndex < 0 := by norm_num [cexC2, baseMS]
  have hidx : (fpInit baseObj cexC2).pathIndex = 2 := by
    rw [fpInit_pathIndex, show cexC2.pos = ⟨0, 0, 0⟩ from rfl,
      show cexC2.pathPoints = cpath from rfl, findStart_at_0]
    norm_num
  have htar : (fpInit baseObj cexC2).target = ⟨20, 0 - 0, 0⟩ := by
    rw [fpInit_target, show cexC2.pos = ⟨0, 0, 0⟩ from rfl,
      show cexC2.pathPoints = cpath from rfl, findStart_at_0,
      show (1 : ℤ) + 1 = 2 from rfl, cpath_p2]
    norm_num [baseObj]
  have hpos : (fpInit baseObj cexC2).pos = ⟨10, 0 - 0, 0⟩ := by
    rw [fpInit_pos, show cexC2.pos = ⟨0, 0, 0⟩ from rfl,
      show cexC2.pathPoints = cpath from rfl, findStart_at_0, cpath_p1]
    norm_num [baseObj]
  have hd : ¬(vdist (fpInit baseObj cexC2).target (fpInit baseObj cexC2).pos ≤
      (fpInit baseObj cexC2).speed * 0) := by
    rw [htar, hpos, show (fpInit baseObj cexC2).speed = 1 from rfl]
    rw [show vdist (⟨20, 0 - 0, 0⟩ : Vec3) ⟨10, 0 - 0, 0⟩ = 10 from
      vdist_eq _ _ 10 (by norm_num) (by norm_num)]
    norm_num
  have h0' : ¬((fpInit baseObj cexC2).pathIndex < 0) := by rw [hidx]; norm_num
  have hrun := followPath_pathIndex_no_advance baseObj 0 (fpInit baseObj cexC2) h0' hd
  rw [followPath_uninit baseObj 0 cexC2 hneg, hrun, hidx]
  exact ⟨rfl, rfl, by norm_num [cexC2, baseMS]⟩

/-- Counterexample for C1 as stated: when the chosen start index is the last
waypoint (index 2 of the 3-point cpath), initialization leaves pathIndex = 3 =
pathPointCount, outside [0, pathPointCount), because the init block's
pathIndex++ has no wrap check. -/
theorem followPath_init_last_waypoint_escapes :
    (followPath baseObj 1 cexC1).1.pathIndex ≠ -1 ∧
    ¬((followPath baseObj 1 cexC1).1.pathIndex < (cexC1.pathPoints.length : ℤ) / 4) := by
  have hneg : cexC1.pathIndex < 0 := by norm_num [cexC1, baseMS]
  have hidx : (fpInit baseObj cexC1).pathIndex = 3 := by
    rw [fpInit_pathIndex, show cexC1.pos = ⟨20, 0, 0⟩ from rfl,
      show cexC1.pathPoints = cpath from rfl, findStart_at_20]
    norm_num
  have htar : (fpInit baseObj cexC1).target = ⟨0, 0 - 0, 0⟩ := by
    rw [fpInit_target, show cexC1.pos = ⟨20, 0, 0⟩ from rfl,
      show cexC1.pathPoints = cpath from rfl, findStart_at_20,
      show (2 : ℤ) + 1 = 3 from rfl, cpath_p3]
    norm_num [baseObj]
  have hpos : (fpInit baseObj cexC1).pos = ⟨20, 0 - 0, 0⟩ := by
    rw [fpInit_pos, show cexC1.pos = ⟨20, 0, 0⟩ from rfl,
      show cexC1.pathPoints = cpath from rfl, findStart_at_20, cpath_p2]
    norm_num [baseObj]
  have hd : ¬(vdist (fpInit baseObj cexC1).target (fpInit baseObj cexC1).pos ≤
      (fpInit baseObj cexC1).speed * 1) := by
    rw [htar, hpos, show (fpInit baseObj cexC1).speed = 1 from rfl]
    rw [show vdist (⟨0, 0 - 0, 0⟩ : Vec3) ⟨20, 0 - 0, 0⟩ = 20 from
      vdist_eq _ _ 20 (by norm_num) (by norm_num)]
    norm_num
  have h0' : ¬((fpInit baseObj cexC1).pathIndex < 0) := by rw [hidx]; norm_num
  have hrun := followPath_pathIndex_no_advance baseObj 1 (fpInit baseObj cexC1) h0' hd
  rw [followPath_uninit baseObj 1 cexC1 hneg, hrun, hidx]
  constructor
  · norm_num
  · norm_num [cexC1, baseMS, cpath]

theorem yawAdvance_sign (dt : ℝ) (m : MotionState) :
    jsSign (yawAdvance dt m).eulerStep.y =
      jsSign (angleDist (yawAdvance dt m).euler.y (yawAdvance dt m).eulerTarget.y) := by
  simp only [yawAdvance]
  split_ifs with h
  · show jsSign (0 : ℝ) = jsSign (angleDist m.eulerTarget.y m.eulerTarget.y)
    rw [angleDist_self]
  · exact not_ne_iff.mp h

/-- Every followPath call (on any state) ends with the yaw-step sign equal to
the sign of the remaining yaw distance: the frame-boundary invariant assumed
by the no-overshoot theorem is re-established by every update. -/
theorem followPath_yaw_sign_invariant (o : ObjectRenderer) (dt : ℝ) (m : MotionState) :
    jsSign (followPath o dt m).1.eulerStep.y =
      jsSign (angleDist (followPath o dt m).1.euler.y
        (followPath o dt m).1.eulerTarget.y) := by
  simp only [followPath]
  exact yawAdvance_sign dt _

theorem yawAdvance_cases (dt : ℝ) (m : MotionState)
    (hsig : jsSign m.eulerStep.y = jsSign (angleDist m.euler.y m.eulerTarget.y)) :
    ((yawAdvance dt m).euler.y = m.euler.y + m.eulerStep.y * dt ∨
      ((yawAdvance dt m).euler.y = m.eulerTarget.y ∧ (yawAdvance dt m).eulerStep.y = 0)) ∧
    (jsSign (angleDist (yawAdvance dt m).euler.y m.eulerTarget.y) =
       jsSign (angleDist m.euler.y m.eulerTarget.y) ∨
      ((yawAdvance dt m).euler.y = m.eulerTarget.y ∧ (yawAdvance dt m).eulerStep.y = 0)) := by
  simp only [yawAdvance]
  split_ifs with h
  · exact ⟨Or.inr ⟨rfl, rfl⟩, Or.inr ⟨rfl, rfl⟩⟩
  · refine ⟨Or.inl rfl, Or.inl ?_⟩
    exact (not_ne_iff.mp h).symm.trans hsig

theorem adjustBasePitch_euler (m : MotionState) (dt : ℝ) :
    (adjustBasePitch m dt).euler = m.euler := (adjustBasePitch_preserves m dt).2.2.2.2.2.1

theorem adjustBasePitch_eulerStep (m : MotionState) (dt : ℝ) :
    (adjustBasePitch m dt).eulerStep = m.eulerStep :=
  (adjustBasePitch_preserves m dt).2.2.2.2.2.2.1

theorem adjustBasePitch_eulerTarget (m : MotionState) (dt : ℝ) :
    (adjustBasePitch m dt).eulerTarget = m.eulerTarget :=
  (adjustBasePitch_preserves m dt).2.2.2.2.2.2.2.1

/-- When the distance check fails (no waypoint advance), followPath is the
pitch blend followed by the yaw advance and the position integration. -/
theorem followPath_no_advance_eq (o : ObjectRenderer) (dt : ℝ) (m : MotionState)
    (h0 : ¬(m.pathIndex < 0))
    (hd : ¬(vdist m.target m.pos ≤ m.speed * dt)) :
    (followPath o dt m).1 =
      (let m2 := if m.adjustPitch = true then adjustBasePitch m dt else m
       let m5 := yawAdvance dt m2
       { m5 with pos := vadd m5.pos (vscale m5.velocity dt) }) := by
  simp only [followPath, if_neg h0]
  by_cases hP : m.adjustPitch = true
  · simp only [hP, if_true, reduceIte]
    rw [if_neg (by
      rw [(adjustBasePitch_preserves m dt).2.2.2.1, (adjustBasePitch_preserves m dt).2.2.1,
        (adjustBasePitch_preserves m dt).2.2.2.2.1]
      exact hd)]
  · simp only [hP, Bool.false_eq_true, if_false, reduceIte]
    rw [if_neg hd]

/-- Claim C4: within one followPath update of an initialized state that does
not reach its waypoint this frame, euler.y is advanced by eulerStep.y *
deltaTimeInFrames unless it is snapped exactly onto eulerTarget.y with
eulerStep.y set exactly to 0 in that same step; given the frame-boundary
invariant (step sign = sign of remaining angular distance, which
followPath_yaw_sign_invariant shows every update re-establishes), the sign of
the signed angular distance to eulerTarget.y cannot change without such a
snap; eulerTarget.y itself is unchanged. -/
theorem followPath_yaw_never_overshoots (o : ObjectRenderer) (dt : ℝ) (m : MotionState)
    (h0 : 0 ≤ m.pathIndex)
    (hadv : ¬(vdist m.target m.pos ≤ m.speed * dt))
    (hsig : jsSign m.eulerStep.y = jsSign (angleDist m.euler.y m.eulerTarget.y)) :
    ((followPath o dt m).1.euler.y = m.euler.y + m.eulerStep.y * dt ∨
      ((followPath o dt m).1.euler.y = m.eulerTarget.y ∧
        (followPath o dt m).1.eulerStep.y = 0)) ∧
    (jsSign (angleDist (followPath o dt m).1.euler.y m.eulerTarget.y) =
       jsSign (angleDist m.euler.y m.eulerTarget.y) ∨
      ((followPath o dt m).1.euler.y = m.eulerTarget.y ∧
        (followPath o dt m).1.eulerStep.y = 0)) ∧
    (followPath o dt m).1.eulerTarget.y = m.eulerTarget.y := by
  have hni : ¬(m.pathIndex < 0) := not_lt.mpr h0
  rw [followPath_no_advance_eq o dt m hni hadv]
  by_cases hP : m.adjustPitch = true
  · simp only [hP, if_true, reduceIte]
    have he := adjustBasePitch_euler m dt
    have hs := adjustBasePitch_eulerStep m dt
    have ht := adjustBasePitch_eulerTarget m dt
    have hsig2 : jsSign (adjustBasePitch m dt).eulerStep.y =
        jsSign (angleDist (adjustBasePitch m dt).euler.y
          (adjustBasePitch m dt).eulerTarget.y) := by
      rw [he, hs, ht]
      exact hsig
    have hc := yawAdvance_cases dt (adjustBasePitch m dt) hsig2
    rw [he, hs, ht] at hc
    exact ⟨hc.1, hc.2, by
      simp only [yawAdvance_eulerTarget, adjustBasePitch_eulerTarget]⟩
  · simp only [hP, Bool.false_eq_true, if_false, reduceIte]
    have hc := yawAdvance_cases dt m hsig
    exact ⟨hc.1, hc.2, by simp only [yawAdvance_eulerTarget]⟩

theorem followPath_yaw_never_overshoots_witness :
    ((followPath baseObj 1 cexZeroDt).1.euler.y =
        cexZeroDt.euler.y + cexZeroDt.eulerStep.y * 1 ∨
      ((followPath baseObj 1 cexZeroDt).1.euler.y = cexZeroDt.eulerTarget.y ∧
        (followPath baseObj 1 cexZeroDt).1.eulerStep.y = 0)) ∧
    (jsSign (angleDist (followPath baseObj 1 cexZeroDt).1.euler.y cexZeroDt.eulerTarget.y) =
       jsSign (angleDist cexZeroDt.euler.y cexZeroDt.eulerTarget.y) ∨
      ((followPath baseObj 1 cexZeroDt).1.euler.y = cexZeroDt.eulerTarget.y ∧
        (followPath baseObj 1 cexZeroDt).1.eulerStep.y = 0)) ∧
    (followPath baseObj 1 cexZeroDt).1.eulerTarget.y = cexZeroDt.eulerTarget.y := by
  refine followPath_yaw_never_overshoots baseObj 1 cexZeroDt (le_refl 0) ?_ ?_
  · rw [show cexZeroDt.target = ⟨10, 0, 0⟩ from rfl, show cexZeroDt.pos = ⟨0, 0, 0⟩ from rfl,
      show cexZeroDt.speed = 1 from rfl,
      show vdist (⟨10, 0, 0⟩ : Vec3) ⟨0, 0, 0⟩ = 10 from
        vdist_eq _ _ 10 (by norm_num) (by norm_num)]
    norm_num
  · rw [show cexZeroDt.eulerStep.y = 0 from rfl, show cexZeroDt.euler.y = 0 from rfl,
      show cexZeroDt.eulerTarget.y = 0 from rfl, angleDist_self]

theorem findLoop_concat (p : Vec3) (path : List ℝ) :
    ∀ (k : ℕ) (i : ℤ) (st : FindSt),
      findLoop p path i (k + 1) st =
        findStep p path (findLoop p path i k st) (i + (k : ℤ)) := by
  intro k
  induction k with
  | zero =>
    intro i st
    show findLoop p path (i + 1) 0 (findStep p path st i) = _
    simp [findLoop]
  | succ k ih =>
    intro i st
    show findLoop p path (i + 1) (k + 1) (findStep p path st i) = _
    rw [ih (i + 1) (findStep p path st i)]
    show findStep p path (findLoop p path (i + 1) k (findStep p path st i)) (i + 1 + (k : ℤ)) =
      findStep p path (findLoop p path (i + 1) k (findStep p path st i)) (i + ((k : ℤ) + 1))
    congr 1
    ring

/-- Loop invariant of findPathStartIndex after the indices 1..k have been
processed: minPoint is a nearest waypoint among 0..k (minDist its distance)
and secPoint is a nearest waypoint among the rest. -/
def InvFind (p : Vec3) (path : List ℝ) (k : ℤ) (st : FindSt) : Prop :=
  0 ≤ st.minPoint ∧ st.minPoint ≤ k ∧
  st.minDist = vdist p (pathPointV path st.minPoint) ∧
  (∀ j : ℤ, 0 ≤ j → j ≤ k → j ≠ st.minPoint →
    vdist p (pathPointV path st.minPoint) ≤ vdist p (pathPointV path j)) ∧
  0 ≤ st.secPoint ∧ st.secPoint ≤ k ∧ st.secPoint ≠ st.minPoint ∧
  st.secDist = vdist p (pathPointV path st.secPoint) ∧
  (∀ j : ℤ, 0 ≤ j → j ≤ k → j ≠ st.minPoint → j ≠ st.secPoint →
    vdist p (pathPointV path st.secPoint) ≤ vdist p (pathPointV path j))

theorem findStep_inv (p : Vec3) (path : List ℝ) (k : ℤ) (st : FindSt)
    (hk : 1 ≤ k) (h : InvFind p path k st) :
    InvFind p path (k + 1) (findStep p path st (k + 1)) := by
  obtain ⟨h1, h2, h3, h4, h5, h6, h7, h8, h9⟩ := h
  unfold InvFind
  simp only [findStep]
  split_ifs with hc1 hc2 <;> try dsimp only
  case _ =>
    refine ⟨by omega, le_refl _, rfl, ?_, h1, by omega, by omega, h3, ?_⟩
    · intro j hj0 hjk hjne
      rcases eq_or_ne j st.minPoint with he | hne
      · rw [he]
        rw [h3] at hc1
        exact le_of_lt hc1
      · have := h4 j hj0 (by omega) hne
        rw [h3] at hc1
        linarith
    · intro j hj0 hjk hjne1 hjne2
      exact h4 j hj0 (by omega) hjne2
  · have hd2 : vdist p (pathPointV path (k + 1)) < st.secDist := by
      rcases hc2 with hlt | hlt
      · omega
      · exact hlt
    refine ⟨h1, by omega, h3, ?_, by omega, le_refl _, by omega, rfl, ?_⟩
    · intro j hj0 hjk hjne
      rcases eq_or_ne j (k + 1) with he | hne
      · rw [he]
        rw [h3] at hc1
        exact not_lt.mp hc1
      · exact h4 j hj0 (by omega) hjne
    · intro j hj0 hjk hjne1 hjne2
      rcases eq_or_ne j st.secPoint with he | hne
      · rw [he]
        rw [h8] at hd2
        exact le_of_lt hd2
      · have := h9 j hj0 (by omega) hjne1 hne
        rw [h8] at hd2
        linarith
  · push_neg at hc2
    refine ⟨h1, by omega, h3, ?_, h5, by omega, h7, h8, ?_⟩
    · intro j hj0 hjk hjne
      rcases eq_or_ne j (k + 1) with he | hne
      · rw [he]
        rw [h3] at hc1
        exact not_lt.mp hc1
      · exact h4 j hj0 (by omega) hjne
    · intro j hj0 hjk hjne1 hjne2
      rcases eq_or_ne j (k + 1) with he | hne
      · rw [he]
        rw [h8] at hc2
        exact hc2.2
      · exact h9 j hj0 (by omega) hjne1 hjne2

theorem findStart_inv_base (p : Vec3) (path : List ℝ) :
    InvFind p path 1 (findStep p path ⟨0, -1, 0, vdist p (pathPointV path 0)⟩ 1) := by
  unfold InvFind
  simp only [findStep]
  split_ifs with hc1 hc2 <;> dsimp only
  · refine ⟨by norm_num, le_refl _, rfl, ?_, le_refl _, by norm_num, by norm_num, rfl, ?_⟩
    · intro j hj0 hjk hjne
      have hj : j = 0 := by omega
      rw [hj]
      exact le_of_lt hc1
    · intro j hj0 hjk hjne1 hjne2
      omega
  · refine ⟨le_refl _, by norm_num, rfl, ?_, by norm_num, le_refl _, by norm_num, rfl, ?_⟩
    · intro j hj0 hjk hjne
      have hj : j = 1 := by omega
      rw [hj]
      exact not_lt.mp hc1
    · intro j hj0 hjk hjne1 hjne2
      omega
  · exact absurd (Or.inl (by norm_num)) hc2

theorem findLoop_inv (p : Vec3) (path : List ℝ) :
    ∀ k : ℕ, 1 ≤ k → InvFind p path (k : ℤ)
      (findLoop p path 1 k ⟨0, -1, 0, vdist p (pathPointV path 0)⟩) := by
  intro k
  induction k with
  | zero => intro h; omega
  | succ k ih =>
    intro _
    by_cases hk : k = 0
    · subst hk
      rw [findLoop_concat]
      show InvFind p path _ (findStep p path
        (findLoop p path 1 0 ⟨0, -1, 0, vdist p (pathPointV path 0)⟩) (1 + ((0 : ℕ) : ℤ)))
      have h1 : (1 + ((0 : ℕ) : ℤ)) = 1 := by norm_num
      rw [h1]
      exact findStart_inv_base p path
    · have hk1 : 1 ≤ k := by omega
      rw [findLoop_concat]
      have hstep := findStep_inv p path (k : ℤ) _ (by exact_mod_cast hk1) (ih hk1)
      have e1 : ((k + 1 : ℕ) : ℤ) = (k : ℤ) + 1 := by push_cast; ring
      have e2 : (1 + (k : ℤ)) = (k : ℤ) + 1 := by ring
      rw [e1, e2]
      exact hstep

/-- Claim C5: for a path of at least two waypoints whose nearest waypoint N
and second-nearest waypoint S to the query position are strict (characterized
by the two strict-minimality hypotheses, which require the relevant distances
to be distinct), findPathStartIndex returns 0 when N = 0 and S is not 1, 0 in
the symmetric case (S = 0 and N is not 1), and otherwise max N S. -/
theorem findPathStartIndex_nearest (p : Vec3) (path : List ℝ) (n : ℕ)
    (hn : 2 ≤ n) (hlen : path.length = 4 * n) (N S : ℤ)
    (hN0 : 0 ≤ N) (hNn : N < (n : ℤ)) (hS0 : 0 ≤ S) (hSn : S < (n : ℤ)) (hNS : N ≠ S)
    (hNmin : ∀ j : ℤ, 0 ≤ j → j < (n : ℤ) → j ≠ N →
      vdist p (pathPointV path N) < vdist p (pathPointV path j))
    (hSmin : ∀ j : ℤ, 0 ≤ j → j < (n : ℤ) → j ≠ N → j ≠ S →
      vdist p (pathPointV path S) < vdist p (pathPointV path j)) :
    findPathStartIndex p path =
      if N = 0 ∧ S ≠ 1 then 0 else if S = 0 ∧ N ≠ 1 then 0 else max N S := by
  have hit : (path.length + 3) / 4 - 1 = n - 1 := by
    rw [hlen]
    rw [Nat.mul_add_div (by norm_num)]
    norm_num
  have hn1 : 1 ≤ n - 1 := by omega
  have hinv := findLoop_inv p path (n - 1) hn1
  obtain ⟨h1, h2, h3, h4, h5, h6, h7, h8, h9⟩ := hinv
  have hcast : ((n - 1 : ℕ) : ℤ) = (n : ℤ) - 1 := by omega
  rw [hcast] at h2 h6
  have hminN :
      (findLoop p path 1 (n - 1) ⟨0, -1, 0, vdist p (pathPointV path 0)⟩).minPoint = N := by
    by_contra hne
    have hA := h4 N hN0 (by omega) (fun hh => hne hh.symm)
    have hB := hNmin _ h1 (by omega) hne
    linarith
  have hsecS :
      (findLoop p path 1 (n - 1) ⟨0, -1, 0, vdist p (pathPointV path 0)⟩).secPoint = S := by
    rw [hminN] at h7 h9
    by_contra hne
    have hA := h9 S hS0 (by omega) (Ne.symm hNS) (fun hh => hne hh.symm)
    have hB := hSmin _ h5 (by omega) h7 hne
    linarith
  simp only [findPathStartIndex, hit]
  rw [hminN, hsecS]

/-- Witness path for C5: two waypoints at x = 1 and x = 2. -/
def cpath2 : List ℝ := [1, 0, 0, 0, 2, 0, 0, 0]

theorem d2w0 : vdist ⟨0, 0, 0⟩ (pathPointV cpath2 0) = 1 := by
  rw [show pathPointV cpath2 0 = ⟨1, 0, 0⟩ from rfl]
  exact vdist_eq _ _ 1 (by norm_num) (by norm_num)

theorem d2w1 : vdist ⟨0, 0, 0⟩ (pathPointV cpath2 1) = 2 := by
  rw [show pathPointV cpath2 1 = ⟨2, 0, 0⟩ from rfl]
  exact vdist_eq _ _ 2 (by norm_num) (by norm_num)

theorem findPathStartIndex_nearest_witness : findPathStartIndex ⟨0, 0, 0⟩ cpath2 = 1 := by
  have h := findPathStartIndex_nearest ⟨0, 0, 0⟩ cpath2 2 (le_refl 2)
    (by norm_num [cpath2]) 0 1 (le_refl 0) (by norm_num) (by norm_num) (by norm_num)
    (by norm_num) ?_ ?_
  · rw [h]
    norm_num
  · intro j hj0 hjn hjne
    have hj : j = 1 := by omega
    rw [hj, d2w0, d2w1]
    norm_num
  · intro j hj0 hjn hjne1 hjne2
    omega

theorem followPath_pathIndex_in_range_witness :
    0 ≤ (runPath baseObj [1] cexC2).pathIndex ∧
    (runPath baseObj [1] cexC2).pathIndex < ((3 : ℕ) : ℤ) :=
  followPath_pathIndex_in_range baseObj 3 cexC2 1 []
    (by norm_num [cexC2, baseMS, cpath]) rfl
    (by rw [show cexC2.pos = ⟨0, 0, 0⟩ from rfl,
          show cexC2.pathPoints = cpath from rfl, findStart_at_0]
        norm_num)

end KD
